import Mathlib

/-
Formal model of the PDFSwifter API service (src/main.py).

Python strings are modelled as lists of characters, bytes as natural
numbers, and the filesystem as an existence predicate on paths.  External
collaborators (yt_dlp, pdfplumber, pdf2docx, fitz) are modelled through
their observable input/output behaviour at the call sites in src/main.py;
the Python standard library helpers used by the code (os.path.basename,
os.path.splitext, os.path.join, str.rfind, str.lower, str.endswith,
unicodedata NFKD normalisation, ASCII encoding with errors="ignore") are
embedded directly below.
-/

set_option linter.unusedVariables false

namespace PDFSwifter

/-- Characters of a Python string. -/
abbrev Str : Type := List Char

/-- Character list of a string literal. -/
def chars (s : String) : Str := s.data

/-! ### Storage roots and constants (src/main.py lines 24-35) -/

def DOWNLOAD_FOLDER : Str := chars "downloads"

def PDF_DOWNLOAD_FOLDER : Str := chars "pdf_uploads"

def EXCEL_DOWNLOAD_FOLDER : Str := chars "excel_outputs"

def WORD_DOWNLOAD_FOLDER : Str := chars "word_outputs"

def IMAGE_DOWNLOAD_FOLDER : Str := chars "image_outputs"

/-- CHUNK_SIZE = 1024 * 1024, the 1 MiB upload read granularity. -/
def CHUNK_SIZE : Nat := 1024 * 1024

/-! ### Python standard library helpers used by src/main.py -/

/-- Python str.rfind restricted to a one-character needle: the index of the
last occurrence of the character in the string, or -1 when absent. -/
def rfind (p : Str) (c : Char) : Int :=
  match p with
  | [] => -1
  | x :: xs =>
      let r := rfind xs c
      if 0 ≤ r then r + 1 else if x = c then 0 else -1

/-- os.path.basename (posix): everything after the last slash,
computed as p[p.rfind(sep) + 1 :]. -/
def basename (p : Str) : Str := p.drop (rfind p '/' + 1).toNat

/-- os.path.splitext (posix): split off the extension at the last dot,
provided that dot lies after the last slash and the characters between the
slash and the dot are not all dots (so dotfiles keep their name). -/
def splitext (p : Str) : Str × Str :=
  let sepIndex := rfind p '/'
  let dotIndex := rfind p '.'
  if sepIndex < dotIndex then
    let start := (sepIndex + 1).toNat
    let between := (p.drop start).take (dotIndex.toNat - start)
    if between.any (fun c => c ≠ '.') then
      (p.take dotIndex.toNat, p.drop dotIndex.toNat)
    else (p, [])
  else (p, [])

/-- os.path.join (posix) for two components. -/
def joinPath (a b : Str) : Str :=
  if b.head? = some '/' then b
  else if a = [] ∨ a.getLast? = some '/' then a ++ b
  else a ++ '/' :: b

/-- Python str.lower on one character, for the ASCII letters exercised by
the code (extensions and filenames compared against ".pdf" and ".mp4"). -/
def lowerChar (c : Char) : Char :=
  if 'A' ≤ c ∧ c ≤ 'Z' then Char.ofNat (c.toNat + 32) else c

/-- Python str.lower, character by character. -/
def lowerStr (s : Str) : Str := s.map lowerChar

/-- Python str.endswith. -/
def endsWith (s suf : Str) : Bool := suf.isSuffixOf s

/-- Decimal digit character (code point 48 + d). -/
def digitChar (d : Nat) : Char := Char.ofNat (48 + d)

/-- Fuel-driven accumulator loop for the decimal representation. -/
def natCharsAux : Nat → Nat → Str → Str
  | 0, _, acc => acc
  | fuel + 1, n, acc =>
      let acc' := digitChar (n % 10) :: acc
      if n < 10 then acc' else natCharsAux fuel (n / 10) acc'

/-- Model of Python str(n) for a natural number: its decimal digits. -/
def natChars (n : Nat) : Str := natCharsAux (n + 1) n []

/-! ### Name sanitizer (src/main.py lines 42-46 and 59-63) -/

/-- The precomposed character LATIN SMALL LETTER E WITH ACUTE. -/
def eAcute : Char := Char.ofNat 0xE9

/-- The precomposed character LATIN CAPITAL LETTER E WITH ACUTE. -/
def eAcuteUpper : Char := Char.ofNat 0xC9

/-- COMBINING ACUTE ACCENT, the non-ASCII mark produced by decomposition. -/
def combiningAcute : Char := Char.ofNat 0x301

/-- Model of unicodedata.normalize NFKD on one character: canonical
decomposition for the accented characters exercised in this development;
characters without a decomposition entry are returned unchanged (which is
exact for ASCII and for characters such as CJK ideographs that have no
compatibility decomposition). -/
def nfkdChar (c : Char) : List Char :=
  if c = eAcute then ['e', combiningAcute]
  else if c = eAcuteUpper then ['E', combiningAcute]
  else [c]

/-- unicodedata.normalize NFKD over a whole string. -/
def nfkd (s : Str) : Str := s.flatMap nfkdChar

/-- Python encode ASCII with errors ignore followed by decode: every
code point above 127 is silently dropped. -/
def encodeAsciiIgnore (s : Str) : Str := s.filter (fun c => c.toNat < 128)

/-- Membership in the regex character class A-Z a-z 0-9 dot underscore
hyphen used by ascii_filename. -/
def isAllowedChar (c : Char) : Bool :=
  decide (('A' ≤ c ∧ c ≤ 'Z') ∨ ('a' ≤ c ∧ c ≤ 'z') ∨ ('0' ≤ c ∧ c ≤ '9') ∨
    c = '.' ∨ c = '_' ∨ c = '-')

/-- The re.sub step of ascii_filename: every character outside the allowed
class is replaced by an underscore. -/
def subDisallowed (s : Str) : Str :=
  s.map (fun c => if isAllowedChar c then c else '_')

/-- ascii_filename (src/main.py line 42): NFKD-normalise, drop non-ASCII
code points, then replace every remaining disallowed character by an
underscore. -/
def ascii_filename (s : Str) : Str :=
  subDisallowed (encodeAsciiIgnore (nfkd s))

/-- safe_stem (src/main.py line 59): sanitized stem of the basename, with
the fixed fallback token when sanitisation strips everything. -/
def safe_stem (filename : Str) : Str :=
  let stem := (splitext (basename filename)).1
  let sanitized := ascii_filename stem
  if sanitized = [] then chars "file" else sanitized

/-! ### Deferred deletion scheduler (src/main.py lines 49-56) -/

/-- Filesystem state: which paths currently exist. -/
def FS : Type := Str → Bool

/-- Removal of a path from the filesystem state. -/
def removePath (fs : FS) (p : Str) : FS :=
  fun q => if q = p then false else fs q

/-- os.remove: removes the path, raising FileNotFoundError when the path
does not exist. -/
def os_remove (fs : FS) (p : Str) : Except Str FS :=
  if fs p then .ok (removePath fs p) else .error (chars "FileNotFoundError")

/-- A pending deletion registered by delete_file_later: the path together
with the delay after which the background thread fires. -/
structure PendingDeletion where
  path : Str
  delay : Nat

/-- delete_file_later (src/main.py line 49): registers the path and the
delay; the background thread sleeps for the delay and then runs the guarded
removal modelled by fireScheduledDeletion. -/
def delete_file_later (p : Str) (delay : Nat) : PendingDeletion :=
  { path := p, delay := delay }

/-- The body of the background thread of delete_file_later after the sleep:
if the path still exists it is removed with os.remove, otherwise nothing
happens. -/
def fireScheduledDeletion (fs : FS) (pd : PendingDeletion) : Except Str FS :=
  if fs pd.path then os_remove fs pd.path else .ok fs

/-! ### Streaming upload persister (src/main.py lines 66-80) -/

/-- A FastAPI UploadFile: the client-supplied filename, the payload bytes,
and the read cursor of the underlying stream. -/
structure UploadFile where
  filename : Str
  data : List Nat
  pos : Nat

/-- The while-loop of save_upload_file: repeatedly read a chunk of at most
CHUNK_SIZE bytes from the stream position and append it to the file buffer,
stopping on the first empty chunk.  Returns the written bytes together with
the stream position after the loop. -/
def readChunks (data : List Nat) (pos : Nat) (buffer : List Nat) :
    List Nat × Nat :=
  if h : (data.drop pos).take CHUNK_SIZE = [] then (buffer, pos)
  else
    readChunks data (pos + ((data.drop pos).take CHUNK_SIZE).length)
      (buffer ++ (data.drop pos).take CHUNK_SIZE)
termination_by data.length - pos
decreasing_by
  have hlen : 0 < ((data.drop pos).take CHUNK_SIZE).length :=
    List.length_pos.mpr h
  have hdrop : ((data.drop pos).take CHUNK_SIZE).length ≤ data.length - pos := by
    have h1 : ((data.drop pos).take CHUNK_SIZE).length ≤ (data.drop pos).length := by
      simp [List.length_take]
    rw [List.length_drop] at h1
    exact h1
  have hlt : pos < data.length := by
    by_contra hge
    exact h (by simp [List.drop_eq_nil_of_le (Nat.le_of_not_lt hge)])
  omega

/-- Result of save_upload_file: the allocated destination path, the bytes
written to it, and the upload stream as left behind by the function. -/
structure SaveResult where
  file_path : Str
  written : List Nat
  stream : UploadFile

/-- save_upload_file (src/main.py line 66).  The uuidHex argument stands
for the random draw uuid.uuid4().hex (32 lowercase hexadecimal characters).
The destination name is the hex identifier followed by the lowercased
extension of the upload filename when there is one; the payload is written
chunk by chunk, and the stream cursor is reset to the start afterwards. -/
def save_upload_file (uuidHex : Str) (upload_file : UploadFile)
    (destination_folder : Str) : SaveResult :=
  let ext := (splitext upload_file.filename).2
  let unique_name := uuidHex ++ (if ext ≠ [] then lowerStr ext else [])
  let file_path := joinPath destination_folder unique_name
  let loop := readChunks upload_file.data upload_file.pos []
  { file_path := file_path
    written := loop.1
    stream := { upload_file with pos := 0 } }

/-! ### Conversion helpers (src/main.py lines 83-154) -/

/-- A parsed PDF page as seen through the collaborators: the value returned
by page.extract_table (None, or the list of rows, each a list of cells). -/
structure Page where
  table : Option (List (List Str))

/-- A parsed PDF document: its pages, in order. -/
structure Pdf where
  pages : List Page

/-- A pandas DataFrame as built in convert_pdf_tables_to_excel: the column
header row and the data rows. -/
structure DataFrame where
  columns : List Str
  rows : List (List Str)
deriving DecidableEq

/-- The per-page step of convert_pdf_tables_to_excel: a DataFrame built
from rows one onward with row zero as columns, guarded by the truthiness
test on the extracted table (None and the empty list are both skipped). -/
def tableToDf : Option (List (List Str)) → Option DataFrame
  | none => none
  | some [] => none
  | some (header :: rest) => some { columns := header, rows := rest }

/-- convert_pdf_tables_to_excel (src/main.py line 83): collect one
DataFrame per page with an extractable table; raise ValueError when no page
yields one, otherwise write one sheet per DataFrame named Sheet1, Sheet2,
and so on, in order. -/
def convert_pdf_tables_to_excel (pdf : Pdf) :
    Except Str (List (Str × DataFrame)) :=
  let all_tables := pdf.pages.filterMap (fun p => tableToDf p.table)
  if all_tables = [] then .error (chars "No tables found in PDF.")
  else
    .ok (all_tables.enum.map
      (fun ie => (chars "Sheet" ++ natChars (ie.1 + 1), ie.2)))

/-- create_images_zip (src/main.py line 111): raise ValueError on a PDF
with zero pages; otherwise render page i (zero-based) to
session_folder slash base_name_page_(i+1).png and pack the images into the
zip archive under their basenames, in page order.  The result is the list
of archive entry names. -/
def create_images_zip (pdf : Pdf) (session_folder zip_path base_name : Str) :
    Except Str (List Str) :=
  if pdf.pages.length = 0 then .error (chars "No pages found in PDF.")
  else
    let image_paths := (List.range pdf.pages.length).map
      (fun page_index =>
        joinPath session_folder
          (base_name ++ chars "_page_" ++ natChars (page_index + 1) ++
            chars ".png"))
    .ok (image_paths.map basename)

/-- The filename normalisation step of download_video (src/main.py lines
147-149): the name reported by the fetch collaborator is kept when it
already ends in .mp4 case-insensitively, and otherwise has its extension
replaced by .mp4. -/
def normalizedVideoName (prepared : Str) : Str :=
  if endsWith (lowerStr prepared) (chars ".mp4") then prepared
  else (splitext prepared).1 ++ chars ".mp4"

/-- download_video (src/main.py line 132).  The prepared argument stands
for ydl.prepare_filename(info), the name the fetch collaborator reports;
existsAfter models os.path.exists once the collaborator has returned.  The
normalised name is returned on success; a missing final file raises
FileNotFoundError. -/
def download_video (prepared : Str) (existsAfter : Str → Bool) :
    Except Str Str :=
  let filename := normalizedVideoName prepared
  if existsAfter filename then .ok filename
  else .error (chars "Failed to download video.")

/-! ### Endpoint pipelines (src/main.py lines 212-313) -/

/-- Outcome of an off-thread conversion call, as observed by the request
handler: success, a ValueError raised by the converter (a domain failure),
or any other exception (an unexpected failure). -/
inductive ConvOutcome where
  | success
  | domainFailure (msg : Str)
  | unexpectedFailure (msg : Str)
deriving DecidableEq

/-- Filesystem side effects performed by a request handler, in program
order: synchronous file removal (os.remove), synchronous recursive
directory removal (shutil.rmtree with ignore_errors), directory creation
(os.makedirs with exist_ok), and registration of a deferred deletion
(delete_file_later with the given delay in seconds). -/
inductive FsAction where
  | removeFile (p : Str)
  | removeTree (p : Str)
  | makeDirs (p : Str)
  | scheduleDelete (p : Str) (delay : Nat)
deriving DecidableEq

/-- The HTTP response value produced by a handler: either the JSON error
body carrying one message string, or a FileResponse for a path with the
sanitized download filename in its content-disposition header. -/
inductive Response where
  | errorBody (msg : Str)
  | fileResponse (path : Str) (filename : Str)
deriving DecidableEq

/-- pdf_to_excel (src/main.py line 212).  uuidUpload and uuidOut stand for
the two uuid.uuid4().hex draws; outcome is the result of the off-thread
convert_pdf_tables_to_excel call; partialOutputExists models
os.path.exists(excel_path) inside the except branches.  Returns the
filesystem actions in program order together with the response. -/
def pdf_to_excel (file : UploadFile) (uuidUpload uuidOut : Str)
    (outcome : ConvOutcome) (partialOutputExists : Bool) :
    List FsAction × Response :=
  if endsWith (lowerStr file.filename) (chars ".pdf") = false then
    ([], .errorBody (chars "Please upload a PDF file."))
  else
    let pdf_path := (save_upload_file uuidUpload file PDF_DOWNLOAD_FOLDER).file_path
    let base_name := safe_stem file.filename
    let excel_filename := base_name ++ chars "_" ++ uuidOut ++ chars ".xlsx"
    let excel_path := joinPath EXCEL_DOWNLOAD_FOLDER excel_filename
    match outcome with
    | .success =>
        ([.scheduleDelete pdf_path 300, .scheduleDelete excel_path 600],
         .fileResponse excel_path (ascii_filename (basename excel_path)))
    | .domainFailure msg =>
        ((if partialOutputExists then [.removeFile excel_path] else []) ++
           [.scheduleDelete pdf_path 300],
         .errorBody msg)
    | .unexpectedFailure msg =>
        ((if partialOutputExists then [.removeFile excel_path] else []) ++
           [.scheduleDelete pdf_path 300],
         .errorBody (chars "Failed to convert PDF: " ++ msg))

/-- pdf_to_word (src/main.py line 247).  Both failure kinds are caught by
the single generic except branch of the source. -/
def pdf_to_word (file : UploadFile) (uuidUpload uuidOut : Str)
    (outcome : ConvOutcome) (partialOutputExists : Bool) :
    List FsAction × Response :=
  if endsWith (lowerStr file.filename) (chars ".pdf") = false then
    ([], .errorBody (chars "Please upload a PDF file."))
  else
    let pdf_path := (save_upload_file uuidUpload file PDF_DOWNLOAD_FOLDER).file_path
    let base_name := safe_stem file.filename
    let word_filename := base_name ++ chars "_" ++ uuidOut ++ chars ".docx"
    let word_path := joinPath WORD_DOWNLOAD_FOLDER word_filename
    match outcome with
    | .success =>
        ([.scheduleDelete pdf_path 300, .scheduleDelete word_path 600],
         .fileResponse word_path (ascii_filename (basename word_path)))
    | .domainFailure msg =>
        ((if partialOutputExists then [.removeFile word_path] else []) ++
           [.scheduleDelete pdf_path 300],
         .errorBody (chars "Failed to convert PDF: " ++ msg))
    | .unexpectedFailure msg =>
        ((if partialOutputExists then [.removeFile word_path] else []) ++
           [.scheduleDelete pdf_path 300],
         .errorBody (chars "Failed to convert PDF: " ++ msg))

/-- pdf_to_image (src/main.py line 277).  The per-request session folder is
created before the conversion and removed synchronously on every exit from
the try block. -/
def pdf_to_image (file : UploadFile) (uuidUpload uuidOut : Str)
    (outcome : ConvOutcome) (partialOutputExists : Bool) :
    List FsAction × Response :=
  if endsWith (lowerStr file.filename) (chars ".pdf") = false then
    ([], .errorBody (chars "Please upload a PDF file."))
  else
    let pdf_path := (save_upload_file uuidUpload file PDF_DOWNLOAD_FOLDER).file_path
    let base_name := safe_stem file.filename
    let session_folder :=
      joinPath IMAGE_DOWNLOAD_FOLDER (base_name ++ chars "_" ++ uuidOut)
    let zip_path :=
      joinPath IMAGE_DOWNLOAD_FOLDER
        (base_name ++ chars "_" ++ uuidOut ++ chars ".zip")
    match outcome with
    | .success =>
        ([.makeDirs session_folder, .removeTree session_folder,
          .scheduleDelete pdf_path 300, .scheduleDelete zip_path 600],
         .fileResponse zip_path (ascii_filename (basename zip_path)))
    | .domainFailure msg =>
        ([.makeDirs session_folder, .removeTree session_folder] ++
           (if partialOutputExists then [.removeFile zip_path] else []) ++
           [.scheduleDelete pdf_path 300],
         .errorBody msg)
    | .unexpectedFailure msg =>
        ([.makeDirs session_folder, .removeTree session_folder] ++
           (if partialOutputExists then [.removeFile zip_path] else []) ++
           [.scheduleDelete pdf_path 300],
         .errorBody (chars "Failed to convert PDF: " ++ msg))

/-- The outcome that the off-thread convert_pdf_tables_to_excel call
produces for a given parsed PDF: its ValueError surfaces as a domain
failure. -/
def excelOutcome (pdf : Pdf) : ConvOutcome :=
  match convert_pdf_tables_to_excel pdf with
  | .error msg => .domainFailure msg
  | .ok _ => .success

/-- The outcome that the off-thread create_images_zip call produces for a
given parsed PDF: its ValueError surfaces as a domain failure. -/
def imageOutcome (pdf : Pdf) (session_folder zip_path base_name : Str) :
    ConvOutcome :=
  match create_images_zip pdf session_folder zip_path base_name with
  | .error msg => .domainFailure msg
  | .ok _ => .success

/-! ### Helper lemmas about the sanitizer -/

theorem mem_ascii_filename {s : Str} {c : Char} (hc : c ∈ ascii_filename s) :
    isAllowedChar c = true := by
  rcases List.mem_map.mp hc with ⟨a, _, ha⟩
  by_cases hall : isAllowedChar a = true
  · rw [← ha, if_pos hall]
    exact hall
  · rw [← ha, if_neg hall]
    decide

theorem ascii_filename_all (s : Str) :
    (ascii_filename s).all isAllowedChar = true :=
  List.all_eq_true.mpr (fun _ hc => mem_ascii_filename hc)

theorem ne_eAcute_of_ascii {c : Char} (h : c.toNat < 128) : c ≠ eAcute := by
  rintro rfl
  exact absurd h (by decide)

theorem ne_eAcuteUpper_of_ascii {c : Char} (h : c.toNat < 128) :
    c ≠ eAcuteUpper := by
  rintro rfl
  exact absurd h (by decide)

theorem toNat_lt_of_allowed {c : Char} (h : isAllowedChar c = true) :
    c.toNat < 128 := by
  simp only [isAllowedChar, decide_eq_true_eq] at h
  rcases h with ⟨_, h2⟩ | ⟨_, h2⟩ | ⟨_, h2⟩ | h | h | h
  · have h3 : c.toNat ≤ ('Z' : Char).toNat := h2
    have h4 : ('Z' : Char).toNat = 90 := by decide
    omega
  · have h3 : c.toNat ≤ ('z' : Char).toNat := h2
    have h4 : ('z' : Char).toNat = 122 := by decide
    omega
  · have h3 : c.toNat ≤ ('9' : Char).toNat := h2
    have h4 : ('9' : Char).toNat = 57 := by decide
    omega
  all_goals subst h
  all_goals decide

theorem nfkdChar_of_allowed {c : Char} (h : isAllowedChar c = true) :
    nfkdChar c = [c] := by
  have hlt := toNat_lt_of_allowed h
  simp [nfkdChar, ne_eAcute_of_ascii hlt, ne_eAcuteUpper_of_ascii hlt]

theorem ascii_filename_of_allowed {t : Str}
    (h : ∀ c ∈ t, isAllowedChar c = true) : ascii_filename t = t := by
  induction t with
  | nil => rfl
  | cons c cs ih =>
      have hc : isAllowedChar c = true := h c (List.mem_cons_self c cs)
      have hcs : ∀ x ∈ cs, isAllowedChar x = true :=
        fun x hx => h x (List.mem_cons_of_mem c hx)
      have htail := ih hcs
      simp only [ascii_filename, nfkd, encodeAsciiIgnore,
        subDisallowed] at htail
      simp only [ascii_filename, nfkd, List.flatMap_cons,
        nfkdChar_of_allowed hc, List.singleton_append, encodeAsciiIgnore,
        subDisallowed, List.filter_cons, List.map_cons]
      simp [hc, toNat_lt_of_allowed hc, htail]

/-! ### Claim theorems: sanitizer -/

/-- Claim C10: the filename sanitizer is idempotent; applying
ascii_filename to its own output returns that output unchanged. -/
theorem C10_sanitizer_idempotent (s : Str) :
    ascii_filename (ascii_filename s) = ascii_filename s :=
  ascii_filename_of_allowed (fun _ hc => mem_ascii_filename hc)

/-- Claim C4 (counterexample): the source name consisting of the single
character é is sanitized to the letter e, not to an underscore, refuting
the claim that every character outside the allowed set is replaced by an
underscore. -/
theorem C4_transliteration_cex :
    ascii_filename (chars "é") = chars "e" ∧
    ascii_filename (chars "é") ≠ chars "_" := by
  constructor
  · decide
  · decide

/-- Claim C4 (amended): the sanitizer output contains only letters, digits,
dot, underscore and hyphen; an ASCII character outside that set is replaced
by an underscore; a non-ASCII character with no decomposition is dropped
rather than replaced; and é is transliterated to the letter e. -/
theorem C4_sanitizer_amended (s : Str) :
    (ascii_filename s).all isAllowedChar = true ∧
    (∀ c : Char, c.toNat < 128 → isAllowedChar c = false →
      ascii_filename [c] = ['_']) ∧
    (∀ c : Char, 128 ≤ c.toNat → nfkdChar c = [c] →
      ascii_filename [c] = []) ∧
    ascii_filename (chars "é") = chars "e" := by
  refine ⟨ascii_filename_all s, ?_, ?_, by decide⟩
  · intro c hlt hfalse
    have hn : nfkdChar c = [c] := by
      simp [nfkdChar, ne_eAcute_of_ascii hlt, ne_eAcuteUpper_of_ascii hlt]
    simp [ascii_filename, nfkd, hn, encodeAsciiIgnore, hlt, subDisallowed,
      hfalse]
  · intro c hge hn
    simp [ascii_filename, nfkd, hn, encodeAsciiIgnore, Nat.not_lt.mpr hge,
      subDisallowed]

/-- Witness for C4: a disallowed ASCII character becomes an underscore and
a CJK ideograph is dropped. -/
theorem C4_sanitizer_amended_witness :
    ascii_filename ['/'] = ['_'] ∧ ascii_filename ['中'] = [] :=
  ⟨(C4_sanitizer_amended []).2.1 '/' (by decide) (by decide),
   (C4_sanitizer_amended []).2.2.1 '中' (by decide) (by decide)⟩

/-- Claim C5: safe_stem is total and never returns the empty string; when
sanitisation strips every character of the stem it falls back to the fixed
placeholder token file. -/
theorem C5_safe_stem_total (filename : Str) :
    safe_stem filename ≠ [] ∧
    (ascii_filename (splitext (basename filename)).1 = [] →
      safe_stem filename = chars "file") := by
  constructor
  · by_cases h : ascii_filename (splitext (basename filename)).1 = []
    · have hfb : safe_stem filename = chars "file" := by simp [safe_stem, h]
      rw [hfb]
      decide
    · simp [safe_stem, h]
  · intro h
    simp [safe_stem, h]

/-- Witness for C5: a filename whose stem sanitizes to nothing falls back
to the placeholder, which is nonempty. -/
theorem C5_safe_stem_total_witness :
    safe_stem (chars "中.pdf") = chars "file" ∧
    safe_stem (chars "中.pdf") ≠ [] :=
  ⟨(C5_safe_stem_total (chars "中.pdf")).2 (by decide),
   (C5_safe_stem_total (chars "中.pdf")).1⟩

/-! ### Claim theorems: deferred deletion -/

/-- Claim C2: a scheduled deletion that fires for a path which no longer
exists is a no-op: it returns without error, removes nothing, and makes no
retry (the existence check guards the removal). -/
theorem C2_fire_on_missing_path_noop (fs : FS) (p : Str) (delay : Nat)
    (h : fs p = false) :
    fireScheduledDeletion fs (delete_file_later p delay) = Except.ok fs := by
  simp [fireScheduledDeletion, delete_file_later, h]

/-- Witness for C2 at a concrete path on an empty filesystem. -/
theorem C2_fire_on_missing_path_noop_witness :
    fireScheduledDeletion (fun _ => false)
      (delete_file_later (chars "downloads/a.mp4") 300) =
      Except.ok (fun _ => false) :=
  C2_fire_on_missing_path_noop (fun _ => false) (chars "downloads/a.mp4")
    300 rfl

/-! ### Helper lemmas about the chunked read loop -/

theorem take_append_drop_length_take (C : Nat) (rest : List Nat) :
    rest.take C ++ rest.drop (rest.take C).length = rest := by
  rw [List.length_take]
  rcases Nat.le_total C rest.length with h | h
  · rw [Nat.min_eq_left h, List.take_append_drop]
  · rw [Nat.min_eq_right h, List.take_of_length_le h,
      List.drop_eq_nil_of_le (Nat.le_refl _), List.append_nil]

theorem readChunks_spec (data : List Nat) :
    ∀ n pos buffer, data.length - pos = n → pos ≤ data.length →
      (readChunks data pos buffer).1 = buffer ++ data.drop pos := by
  intro n
  induction n using Nat.strong_induction_on with
  | _ n ih =>
      intro pos buffer hn hle
      rw [readChunks]
      split
      · rename_i hnil
        rcases List.take_eq_nil_iff.mp hnil with hC | hdrop
        · exact absurd hC (by decide)
        · simp [hdrop]
      · rename_i hnil
        have hlen : 0 < ((data.drop pos).take CHUNK_SIZE).length :=
          List.length_pos.mpr hnil
        have htake : ((data.drop pos).take CHUNK_SIZE).length ≤
            (data.drop pos).length := by
          simp [List.length_take]
        rw [List.length_drop] at htake
        have hlt : pos < data.length := by
          by_contra hge
          exact hnil (by simp [List.drop_eq_nil_of_le (Nat.le_of_not_lt hge)])
        rw [ih (data.length - (pos + ((data.drop pos).take CHUNK_SIZE).length))
              (by omega) _ _ rfl (by omega)]
        rw [List.append_assoc]
        congr 1
        rw [← List.drop_drop, take_append_drop_length_take]

/-! ### Claim theorems: streaming upload persister -/

/-- Claim C3: persisting an upload whose stream starts at the beginning
reads it in CHUNK_SIZE chunks until exhausted and writes the chunks in
order, so the destination file is byte-identical to the payload for every
payload size (zero bytes, one chunk, many chunks), and afterwards the
stream cursor is reset to the start. -/
theorem C3_upload_persisted_byte_identical (uuidHex filename : Str)
    (data : List Nat) (folder : Str) :
    (save_upload_file uuidHex ⟨filename, data, 0⟩ folder).written = data ∧
    (save_upload_file uuidHex ⟨filename, data, 0⟩ folder).stream.pos = 0 := by
  constructor
  · show (readChunks data 0 []).1 = data
    rw [readChunks_spec data (data.length - 0) 0 [] rfl (Nat.zero_le _)]
    simp
  · rfl

/-! ### Helper lemmas about rfind, basename and joinPath -/

theorem rfind_eq_neg_one_of_not_mem {p : Str} {c : Char} (h : c ∉ p) :
    rfind p c = -1 := by
  induction p with
  | nil => rfl
  | cons x xs ih =>
      have hx : x ≠ c := fun hxc => h (hxc ▸ List.mem_cons_self x xs)
      have hxs : c ∉ xs := fun hm => h (List.mem_cons_of_mem x hm)
      simp [rfind, ih hxs, hx]

theorem rfind_append_of_not_mem {b : Str} {c : Char} (a : Str) (h : c ∉ b) :
    rfind (a ++ b) c = rfind a c := by
  induction a with
  | nil => simpa [rfind] using rfind_eq_neg_one_of_not_mem h
  | cons x xs ih => simp [rfind, ih]

theorem rfind_append_singleton (a : Str) (c : Char) :
    rfind (a ++ [c]) c = a.length := by
  induction a with
  | nil => simp [rfind]
  | cons x xs ih =>
      simp only [List.cons_append, rfind, List.append_eq]
      rw [ih, if_pos (Int.ofNat_nonneg xs.length)]
      simp only [List.length_cons]
      omega

theorem basename_of_not_mem {b : Str} (h : '/' ∉ b) : basename b = b := by
  simp [basename, rfind_eq_neg_one_of_not_mem h]

theorem basename_append_sep {b : Str} (a : Str) (h : '/' ∉ b) :
    basename (a ++ '/' :: b) = b := by
  have hsplit : a ++ '/' :: b = (a ++ ['/']) ++ b := by simp
  rw [hsplit, basename, rfind_append_of_not_mem _ h, rfind_append_singleton]
  have hlen : ((a.length : Int) + 1).toNat = (a ++ ['/']).length := by
    simp
  rw [hlen, List.drop_left]

theorem head_ne_slash {u : Str} (hu : '/' ∉ u) (hne : u ≠ []) (e : Str) :
    (u ++ e).head? ≠ some '/' := by
  cases u with
  | nil => exact absurd rfl hne
  | cons c rest =>
      simp only [List.cons_append, List.head?_cons]
      intro hsome
      have hc : c = '/' := Option.some.inj hsome
      exact hu (hc ▸ List.mem_cons_self c rest)

theorem head_ne_slash' {u : Str} (hu : '/' ∉ u) (hne : u ≠ []) :
    u.head? ≠ some '/' := by
  have h := head_ne_slash hu hne []
  simpa using h

theorem basename_joinPath {b : Str} (a : Str) (hb : '/' ∉ b) (hbne : b ≠ [])
    (ha : a.getLast? ≠ some '/') : basename (joinPath a b) = b := by
  unfold joinPath
  rw [if_neg (head_ne_slash' hb hbne)]
  by_cases hf : a = [] ∨ a.getLast? = some '/'
  · rcases hf with hf | hf
    · subst hf
      rw [if_pos (Or.inl rfl), List.nil_append]
      exact basename_of_not_mem hb
    · exact absurd hf ha
  · rw [if_neg hf]
    exact basename_append_sep a hb

theorem joinPath_inj_of_head_ne {folder n1 n2 : Str}
    (h1 : n1.head? ≠ some '/') (h2 : n2.head? ≠ some '/')
    (heq : joinPath folder n1 = joinPath folder n2) : n1 = n2 := by
  unfold joinPath at heq
  by_cases hf : folder = [] ∨ folder.getLast? = some '/'
  · rw [if_neg h1, if_pos hf, if_neg h2, if_pos hf] at heq
    exact List.append_cancel_left heq
  · rw [if_neg h1, if_neg hf, if_neg h2, if_neg hf] at heq
    have hc := List.append_cancel_left heq
    injection hc

/-! ### Claim theorems: unique path allocation -/

/-- A concrete 32-character hexadecimal identifier, as drawn by
uuid.uuid4().hex. -/
def uuidA : Str := chars "0a1b2c3d4e5f60718293a4b5c6d7e8f9"

/-- A second, distinct concrete 32-character hexadecimal identifier. -/
def uuidB : Str := chars "ffeeddccbbaa99887766554433221100"

/-- Claim C6 (counterexample): for the upload filename doc.PDF the
allocated destination name carries the lowercased extension .pdf, not the
given extension .PDF unchanged. -/
theorem C6_extension_unchanged_cex :
    (save_upload_file uuidA ⟨chars "doc.PDF", [], 0⟩ PDF_DOWNLOAD_FOLDER).file_path =
      joinPath PDF_DOWNLOAD_FOLDER (uuidA ++ chars ".pdf") ∧
    (save_upload_file uuidA ⟨chars "doc.PDF", [], 0⟩ PDF_DOWNLOAD_FOLDER).file_path ≠
      joinPath PDF_DOWNLOAD_FOLDER (uuidA ++ chars ".PDF") := by
  constructor
  · decide
  · decide

/-- Claim C6 (amended): the destination name is the 128-bit-class random
hexadecimal identifier followed by the lowercased upload extension when
there is one, and two allocations with distinct 32-character identifiers
never collide under the same category root. -/
theorem C6_alloc_amended (u1 u2 : Str) (f1 f2 : UploadFile) (folder : Str)
    (hl1 : u1.length = 32) (hl2 : u2.length = 32) (hne : u1 ≠ u2)
    (hs1 : '/' ∉ u1) (hs2 : '/' ∉ u2) :
    (save_upload_file u1 f1 folder).file_path ≠
      (save_upload_file u2 f2 folder).file_path ∧
    ((splitext f1.filename).2 ≠ [] →
      (save_upload_file u1 f1 folder).file_path =
        joinPath folder (u1 ++ lowerStr (splitext f1.filename).2)) := by
  have hne1 : u1 ≠ [] := by
    intro h
    rw [h] at hl1
    simp at hl1
  have hne2 : u2 ≠ [] := by
    intro h
    rw [h] at hl2
    simp at hl2
  constructor
  · intro heq
    have heq' :
        joinPath folder
            (u1 ++ if (splitext f1.filename).2 ≠ [] then
              lowerStr (splitext f1.filename).2 else []) =
          joinPath folder
            (u2 ++ if (splitext f2.filename).2 ≠ [] then
              lowerStr (splitext f2.filename).2 else []) := heq
    have hn :=
      joinPath_inj_of_head_ne (head_ne_slash hs1 hne1 _)
        (head_ne_slash hs2 hne2 _) heq'
    exact hne (List.append_inj hn (hl1.trans hl2.symm)).1
  · intro hext
    show joinPath folder
        (u1 ++ if (splitext f1.filename).2 ≠ [] then
          lowerStr (splitext f1.filename).2 else []) = _
    rw [if_pos hext]

/-- Witness for C6 (amended) at two concrete identifiers and a concrete
upload named doc.PDF. -/
theorem C6_alloc_amended_witness :
    (save_upload_file uuidA ⟨chars "doc.PDF", [], 0⟩ PDF_DOWNLOAD_FOLDER).file_path ≠
      (save_upload_file uuidB ⟨chars "doc.PDF", [], 0⟩ PDF_DOWNLOAD_FOLDER).file_path ∧
    (save_upload_file uuidA ⟨chars "doc.PDF", [], 0⟩ PDF_DOWNLOAD_FOLDER).file_path =
      joinPath PDF_DOWNLOAD_FOLDER
        (uuidA ++ lowerStr (splitext (chars "doc.PDF")).2) :=
  ⟨(C6_alloc_amended uuidA uuidB ⟨chars "doc.PDF", [], 0⟩
      ⟨chars "doc.PDF", [], 0⟩ PDF_DOWNLOAD_FOLDER (by decide) (by decide)
      (by decide) (by decide) (by decide)).1,
   (C6_alloc_amended uuidA uuidB ⟨chars "doc.PDF", [], 0⟩
      ⟨chars "doc.PDF", [], 0⟩ PDF_DOWNLOAD_FOLDER (by decide) (by decide)
      (by decide) (by decide) (by decide)).2 (by decide)⟩

/-! ### Claim theorems: video download -/

theorem endsWith_append (a suf : Str) : endsWith (a ++ suf) suf = true := by
  simp [endsWith, List.isSuffixOf]

/-- Claim C9: every successful download_video result ends with the
extension .mp4 (compared case-insensitively, exactly as the source
compares it), and when the expected final file is absent after the fetch
collaborator returns, download_video fails instead of succeeding. -/
theorem C9_video_mp4_normalized (prepared : Str) (existsAfter : Str → Bool) :
    (∀ f, download_video prepared existsAfter = Except.ok f →
      endsWith (lowerStr f) (chars ".mp4") = true) ∧
    (existsAfter (normalizedVideoName prepared) = false →
      download_video prepared existsAfter =
        Except.error (chars "Failed to download video.")) := by
  constructor
  · intro f hok
    have hf : f = normalizedVideoName prepared := by
      unfold download_video at hok
      simp only [] at hok
      by_cases hex : existsAfter (normalizedVideoName prepared) = true
      · rw [if_pos hex] at hok
        exact (Except.ok.inj hok).symm
      · rw [if_neg hex] at hok
        exact absurd hok (by simp)
    subst hf
    unfold normalizedVideoName
    by_cases hm : endsWith (lowerStr prepared) (chars ".mp4") = true
    · rw [if_pos hm]
      exact hm
    · rw [if_neg hm]
      unfold lowerStr
      rw [List.map_append]
      have h4 : List.map lowerChar (chars ".mp4") = chars ".mp4" := by decide
      rw [h4]
      exact endsWith_append _ _
  · intro hex
    simp [download_video, hex]

/-- Witness for C9: a fetch reported as video.webm is normalised to
video.mp4; a missing final file yields the failure value. -/
theorem C9_video_mp4_normalized_witness :
    endsWith (lowerStr (chars "video.mp4")) (chars ".mp4") = true ∧
    download_video (chars "video.webm") (fun _ => false) =
      Except.error (chars "Failed to download video.") :=
  ⟨(C9_video_mp4_normalized (chars "video.webm") (fun _ => true)).1
      (chars "video.mp4") (by rfl),
   (C9_video_mp4_normalized (chars "video.webm") (fun _ => false)).2 rfl⟩

/-! ### Helper lemmas about digits, safe_stem and folder paths -/

theorem digitChar_digit {d : Nat} (h : d < 10) :
    '0' ≤ digitChar d ∧ digitChar d ≤ '9' := by
  interval_cases d <;> exact (by decide)

theorem natCharsAux_digits :
    ∀ (fuel n : Nat) (acc : Str),
      (∀ c ∈ acc, '0' ≤ c ∧ c ≤ '9') →
      ∀ c ∈ natCharsAux fuel n acc, '0' ≤ c ∧ c ≤ '9' := by
  intro fuel
  induction fuel with
  | zero => exact fun n acc hacc => hacc
  | succ fuel ih =>
      intro n acc hacc c hc
      have hacc' : ∀ x ∈ digitChar (n % 10) :: acc, '0' ≤ x ∧ x ≤ '9' := by
        intro x hx
        rcases List.mem_cons.mp hx with hx | hx
        · exact hx ▸ digitChar_digit (Nat.mod_lt _ (by decide))
        · exact hacc x hx
      unfold natCharsAux at hc
      by_cases hlt : n < 10
      · rw [if_pos hlt] at hc
        exact hacc' c hc
      · rw [if_neg hlt] at hc
        exact ih (n / 10) _ hacc' c hc

theorem natChars_digits (n : Nat) : ∀ c ∈ natChars n, '0' ≤ c ∧ c ≤ '9' :=
  natCharsAux_digits (n + 1) n [] (by simp)

theorem slash_not_mem_natChars (n : Nat) : '/' ∉ natChars n := by
  intro h
  exact absurd (natChars_digits n '/' h).1 (by decide)

theorem safe_stem_ne_nil (f : Str) : safe_stem f ≠ [] := by
  unfold safe_stem
  by_cases h : ascii_filename (splitext (basename f)).1 = []
  · rw [if_pos h]
    decide
  · rw [if_neg h]
    exact h

theorem slash_not_mem_safe_stem (f : Str) : '/' ∉ safe_stem f := by
  unfold safe_stem
  by_cases h : ascii_filename (splitext (basename f)).1 = []
  · rw [if_pos h]
    decide
  · rw [if_neg h]
    intro hm
    exact absurd (mem_ascii_filename hm) (by decide)

theorem getLast?_ne_of_not_mem {l : Str} {c : Char} (h : c ∉ l) :
    l.getLast? ≠ some c :=
  fun hl => h (List.mem_of_mem_getLast? hl)

theorem getLast?_joinPath_ne_slash {b : Str} (a : Str) (hb : '/' ∉ b)
    (hbne : b ≠ []) : (joinPath a b).getLast? ≠ some '/' := by
  unfold joinPath
  rw [if_neg (head_ne_slash' hb hbne)]
  by_cases hf : a = [] ∨ a.getLast? = some '/'
  · rw [if_pos hf, List.getLast?_append_of_ne_nil _ hbne]
    exact getLast?_ne_of_not_mem hb
  · rw [if_neg hf, List.getLast?_append_of_ne_nil _ (by simp),
      ← List.singleton_append, List.getLast?_append_of_ne_nil _ hbne]
    exact getLast?_ne_of_not_mem hb

/-! ### Claim theorems: image zip entries -/

set_option maxHeartbeats 1000000 in
/-- Claim C8: for every PDF with at least one page, the zip built by the
image endpoint contains exactly one PNG entry per page, in page order,
named stem_page_1.png through stem_page_N.png where the stem is the
sanitized stem of the uploaded filename. -/
theorem C8_image_zip_entries (pdf : Pdf) (filename uuidOut zip_path : Str)
    (hu : '/' ∉ uuidOut) (hN : 1 ≤ pdf.pages.length) :
    create_images_zip pdf
        (joinPath IMAGE_DOWNLOAD_FOLDER
          (safe_stem filename ++ chars "_" ++ uuidOut))
        zip_path (safe_stem filename) =
      Except.ok ((List.range pdf.pages.length).map
        (fun i =>
          safe_stem filename ++ chars "_page_" ++ natChars (i + 1) ++
            chars ".png")) := by
  unfold create_images_zip
  rw [if_neg (by omega)]
  simp only [List.map_map]
  congr 1
  apply List.map_congr_left
  intro i hi
  show basename
      (joinPath
        (joinPath IMAGE_DOWNLOAD_FOLDER
          (safe_stem filename ++ chars "_" ++ uuidOut))
        (safe_stem filename ++ chars "_page_" ++ natChars (i + 1) ++
          chars ".png")) = _
  apply basename_joinPath
  · intro hm
    rcases List.mem_append.mp hm with hm | hm
    · rcases List.mem_append.mp hm with hm | hm
      · rcases List.mem_append.mp hm with hm | hm
        · exact slash_not_mem_safe_stem filename hm
        · exact absurd hm (by decide)
      · exact slash_not_mem_natChars (i + 1) hm
    · exact absurd hm (by decide)
  · intro hb
    exact absurd (List.append_eq_nil.mp hb).2 (by decide)
  · apply getLast?_joinPath_ne_slash
    · intro hm
      rcases List.mem_append.mp hm with hm | hm
      · rcases List.mem_append.mp hm with hm | hm
        · exact slash_not_mem_safe_stem filename hm
        · exact absurd hm (by decide)
      · exact hu hm
    · simp [safe_stem_ne_nil filename]

/-- Witness for C8: a three-page PDF uploaded as report.pdf yields the
three entries report_page_1.png, report_page_2.png, report_page_3.png. -/
theorem C8_image_zip_entries_witness :
    create_images_zip ⟨[⟨none⟩, ⟨none⟩, ⟨none⟩]⟩
        (joinPath IMAGE_DOWNLOAD_FOLDER
          (safe_stem (chars "report.pdf") ++ chars "_" ++ uuidA))
        (chars "out.zip") (safe_stem (chars "report.pdf")) =
      Except.ok
        ((List.range (Pdf.mk [⟨none⟩, ⟨none⟩, ⟨none⟩]).pages.length).map
          (fun i =>
            safe_stem (chars "report.pdf") ++ chars "_page_" ++
              natChars (i + 1) ++ chars ".png")) :=
  C8_image_zip_entries ⟨[⟨none⟩, ⟨none⟩, ⟨none⟩]⟩ (chars "report.pdf")
    uuidA (chars "out.zip") (by decide) (by decide)

/-! ### Claim theorems: domain conversion errors -/

/-- Claim C7: a PDF in which no page yields an extractable table makes the
table converter raise the domain error and the excel endpoint answer with
an error body rather than a success response; a PDF with zero pages makes
the image converter raise the domain error and the image endpoint answer
with an error body. -/
theorem C7_domain_errors (pdf : Pdf) (file : UploadFile) (u1 u2 : Str)
    (pex : Bool)
    (hval : endsWith (lowerStr file.filename) (chars ".pdf") = true) :
    ((∀ p ∈ pdf.pages, p.table = none ∨ p.table = some []) →
      convert_pdf_tables_to_excel pdf =
        Except.error (chars "No tables found in PDF.") ∧
      (pdf_to_excel file u1 u2 (excelOutcome pdf) pex).2 =
        Response.errorBody (chars "No tables found in PDF.")) ∧
    (pdf.pages = [] →
      create_images_zip pdf
          (joinPath IMAGE_DOWNLOAD_FOLDER
            (safe_stem file.filename ++ chars "_" ++ u2))
          (joinPath IMAGE_DOWNLOAD_FOLDER
            (safe_stem file.filename ++ chars "_" ++ u2 ++ chars ".zip"))
          (safe_stem file.filename) =
        Except.error (chars "No pages found in PDF.") ∧
      (pdf_to_image file u1 u2
          (imageOutcome pdf
            (joinPath IMAGE_DOWNLOAD_FOLDER
              (safe_stem file.filename ++ chars "_" ++ u2))
            (joinPath IMAGE_DOWNLOAD_FOLDER
              (safe_stem file.filename ++ chars "_" ++ u2 ++ chars ".zip"))
            (safe_stem file.filename)) pex).2 =
        Response.errorBody (chars "No pages found in PDF.")) := by
  constructor
  · intro htab
    have hnil : pdf.pages.filterMap (fun p => tableToDf p.table) = [] := by
      apply List.filterMap_eq_nil_iff.mpr
      intro p hp
      rcases htab p hp with h | h <;> rw [h] <;> rfl
    have hconv : convert_pdf_tables_to_excel pdf =
        Except.error (chars "No tables found in PDF.") := by
      simp [convert_pdf_tables_to_excel, hnil]
    refine ⟨hconv, ?_⟩
    have hout : excelOutcome pdf =
        ConvOutcome.domainFailure (chars "No tables found in PDF.") := by
      simp [excelOutcome, hconv]
    rw [hout]
    simp [pdf_to_excel, hval]
  · intro hpages
    have hcz : create_images_zip pdf
        (joinPath IMAGE_DOWNLOAD_FOLDER
          (safe_stem file.filename ++ chars "_" ++ u2))
        (joinPath IMAGE_DOWNLOAD_FOLDER
          (safe_stem file.filename ++ chars "_" ++ u2 ++ chars ".zip"))
        (safe_stem file.filename) =
        Except.error (chars "No pages found in PDF.") := by
      simp [create_images_zip, hpages]
    refine ⟨hcz, ?_⟩
    have hout : imageOutcome pdf
        (joinPath IMAGE_DOWNLOAD_FOLDER
          (safe_stem file.filename ++ chars "_" ++ u2))
        (joinPath IMAGE_DOWNLOAD_FOLDER
          (safe_stem file.filename ++ chars "_" ++ u2 ++ chars ".zip"))
        (safe_stem file.filename) =
        ConvOutcome.domainFailure (chars "No pages found in PDF.") := by
      unfold imageOutcome
      rw [hcz]
    rw [hout]
    simp [pdf_to_image, hval]

/-- Witness for C7: a two-page PDF with no extractable tables drives the
excel endpoint to the domain error body, and a zero-page PDF drives the
image endpoint to the domain error body. -/
theorem C7_domain_errors_witness :
    (pdf_to_excel ⟨chars "report.pdf", [], 0⟩ uuidA uuidB
        (excelOutcome ⟨[⟨none⟩, ⟨some []⟩]⟩) true).2 =
      Response.errorBody (chars "No tables found in PDF.") ∧
    (pdf_to_image ⟨chars "report.pdf", [], 0⟩ uuidA uuidB
        (imageOutcome ⟨[]⟩
          (joinPath IMAGE_DOWNLOAD_FOLDER
            (safe_stem (chars "report.pdf") ++ chars "_" ++ uuidB))
          (joinPath IMAGE_DOWNLOAD_FOLDER
            (safe_stem (chars "report.pdf") ++ chars "_" ++ uuidB ++
              chars ".zip"))
          (safe_stem (chars "report.pdf"))) true).2 =
      Response.errorBody (chars "No pages found in PDF.") :=
  ⟨((C7_domain_errors ⟨[⟨none⟩, ⟨some []⟩]⟩ ⟨chars "report.pdf", [], 0⟩
      uuidA uuidB true (by decide)).1 (by decide)).2,
   ((C7_domain_errors ⟨[]⟩ ⟨chars "report.pdf", [], 0⟩
      uuidA uuidB true (by decide)).2 rfl).2⟩

/-! ### Claim theorems: failure-path cleanup of the conversion endpoints -/

/-- The path under which the upload is persisted by an endpoint
(src/main.py lines 217, 252, 282). -/
def uploadedPdfPath (u : Str) (file : UploadFile) : Str :=
  (save_upload_file u file PDF_DOWNLOAD_FOLDER).file_path

/-- The spreadsheet output path of pdf_to_excel (lines 219-222). -/
def excelOutPath (file : UploadFile) (u2 : Str) : Str :=
  joinPath EXCEL_DOWNLOAD_FOLDER
    (safe_stem file.filename ++ chars "_" ++ u2 ++ chars ".xlsx")

/-- The document output path of pdf_to_word (lines 254-257). -/
def wordOutPath (file : UploadFile) (u2 : Str) : Str :=
  joinPath WORD_DOWNLOAD_FOLDER
    (safe_stem file.filename ++ chars "_" ++ u2 ++ chars ".docx")

/-- The intermediate session directory of pdf_to_image (line 286). -/
def imageSessionPath (file : UploadFile) (u2 : Str) : Str :=
  joinPath IMAGE_DOWNLOAD_FOLDER (safe_stem file.filename ++ chars "_" ++ u2)

/-- The zip output path of pdf_to_image (line 288). -/
def imageZipPath (file : UploadFile) (u2 : Str) : Str :=
  joinPath IMAGE_DOWNLOAD_FOLDER
    (safe_stem file.filename ++ chars "_" ++ u2 ++ chars ".zip")

/-- What the failure branch of a conversion endpoint must do, given the
persisted input path, the output artifact path, whether a partial output
exists at catch time, the actions-and-response pair produced, and the
expected error message: the partial output is removed synchronously when it
exists, nothing else is removed with os.remove (in particular not the
input), deletion of the input is scheduled with the standard 300 second
delay, and the response is the structured error body carrying only the
message. -/
def errorCleanupOk (input_path out_path : Str) (pex : Bool)
    (r : List FsAction × Response) (msg : Str) : Prop :=
  (pex = true → FsAction.removeFile out_path ∈ r.1) ∧
  (∀ q, FsAction.removeFile q ∈ r.1 → q = out_path) ∧
  FsAction.scheduleDelete input_path 300 ∈ r.1 ∧
  r.2 = Response.errorBody msg

/-- Claim C1: on either failure kind after the upload was persisted, every
conversion endpoint removes the partially created output synchronously,
schedules deletion of the input with the standard 300 second delay instead
of removing it, and responds with a structured error body carrying a short
message; the image endpoint additionally removes its intermediate session
directory synchronously. -/
theorem C1_failure_cleanup (file : UploadFile) (u1 u2 msg : Str) (pex : Bool)
    (hval : endsWith (lowerStr file.filename) (chars ".pdf") = true) :
    (errorCleanupOk (uploadedPdfPath u1 file) (excelOutPath file u2) pex
        (pdf_to_excel file u1 u2 (ConvOutcome.domainFailure msg) pex) msg ∧
      errorCleanupOk (uploadedPdfPath u1 file) (excelOutPath file u2) pex
        (pdf_to_excel file u1 u2 (ConvOutcome.unexpectedFailure msg) pex)
        (chars "Failed to convert PDF: " ++ msg)) ∧
    (errorCleanupOk (uploadedPdfPath u1 file) (wordOutPath file u2) pex
        (pdf_to_word file u1 u2 (ConvOutcome.domainFailure msg) pex)
        (chars "Failed to convert PDF: " ++ msg) ∧
      errorCleanupOk (uploadedPdfPath u1 file) (wordOutPath file u2) pex
        (pdf_to_word file u1 u2 (ConvOutcome.unexpectedFailure msg) pex)
        (chars "Failed to convert PDF: " ++ msg)) ∧
    (errorCleanupOk (uploadedPdfPath u1 file) (imageZipPath file u2) pex
        (pdf_to_image file u1 u2 (ConvOutcome.domainFailure msg) pex) msg ∧
      errorCleanupOk (uploadedPdfPath u1 file) (imageZipPath file u2) pex
        (pdf_to_image file u1 u2 (ConvOutcome.unexpectedFailure msg) pex)
        (chars "Failed to convert PDF: " ++ msg) ∧
      FsAction.removeTree (imageSessionPath file u2) ∈
        (pdf_to_image file u1 u2 (ConvOutcome.domainFailure msg) pex).1 ∧
      FsAction.removeTree (imageSessionPath file u2) ∈
        (pdf_to_image file u1 u2 (ConvOutcome.unexpectedFailure msg) pex).1) := by
  refine ⟨⟨?_, ?_⟩, ⟨?_, ?_⟩, ⟨?_, ?_, ?_, ?_⟩⟩ <;>
    cases pex <;>
      simp [errorCleanupOk, pdf_to_excel, pdf_to_word, pdf_to_image, hval,
        uploadedPdfPath, excelOutPath, wordOutPath, imageZipPath,
        imageSessionPath]

/-- Witness for C1: the excel endpoint on a domain failure with a partial
output present, at concrete inputs. -/
theorem C1_failure_cleanup_witness :
    errorCleanupOk (uploadedPdfPath uuidA ⟨chars "report.pdf", [], 0⟩)
      (excelOutPath ⟨chars "report.pdf", [], 0⟩ uuidB) true
      (pdf_to_excel ⟨chars "report.pdf", [], 0⟩ uuidA uuidB
        (ConvOutcome.domainFailure (chars "No tables found in PDF.")) true)
      (chars "No tables found in PDF.") :=
  (C1_failure_cleanup ⟨chars "report.pdf", [], 0⟩ uuidA uuidB
    (chars "No tables found in PDF.") true (by decide)).1.1

end PDFSwifter
